import Mathlib

/-!
Verification development for the train-data aggregation service
(`src/services/train_data.py`, class `TrainDataService`).

The Python code is shallowly embedded: JSON/Python values are modelled by
`PyVal`, Python floats by rationals (`ℚ`), dictionaries by insertion-ordered
association lists, time by a rational timestamp, and network effects by
explicit outcome parameters.  Each definition below is translated from the
corresponding function of the source file; the theorems settle the frozen
claims about the code.
-/

set_option maxHeartbeats 1600000

namespace MonitorCP

/-- A Python/JSON value as it occurs in the service's data flow:
`None`, booleans, integers, floats (modelled as rationals — the claims only
involve order comparisons and exact small decimals, where IEEE floats and
rationals agree), strings, lists and string-keyed dicts (insertion-ordered
association lists, as CPython dicts are). -/
inductive PyVal where
  | pyNone
  | vbool (b : Bool)
  | vint (n : Int)
  | vfloat (q : ℚ)
  | vstr (s : String)
  | vlist (xs : List PyVal)
  | vdict (fields : List (String × PyVal))

namespace PyVal

/-- Python truthiness (`bool(v)`): `None`, `False`, zero, the empty string,
the empty list and the empty dict are falsy; everything else is truthy. -/
def pyTruthy : PyVal → Bool
  | pyNone => false
  | vbool b => b
  | vint n => n != 0
  | vfloat q => q != 0
  | vstr s => s ≠ ""
  | vlist xs => !xs.isEmpty
  | vdict fs => !fs.isEmpty

end PyVal

open PyVal

/-- First value bound to key `k` in an association list (CPython dict lookup:
keys are unique in any dict the code builds, so "first" is "the" binding). -/
def lookupS {α : Type} (k : String) : List (String × α) → Option α
  | [] => none
  | (k', v) :: rest => if k' = k then some v else lookupS k rest

/-- CPython dict item assignment `d[k] = v`: if `k` is already bound its
binding is updated in place (insertion position preserved), otherwise the
new binding is appended at the end. -/
def dictSet {α : Type} (l : List (String × α)) (k : String) (v : α) : List (String × α) :=
  match l with
  | [] => [(k, v)]
  | (k', v') :: rest => if k' = k then (k, v) :: rest else (k', v') :: dictSet rest k v

/-- `d.get(k)` on a dict with default `None`; absent key yields `None`.
The source only calls `.get` on values that are dicts on every reachable
path modelled here (non-dict receivers raise `AttributeError` in Python and
are modelled by `pyGetD`/`tagTrain` returning `none` where that path is
reachable). -/
def pyGet (d : PyVal) (k : String) : PyVal :=
  match d with
  | .vdict fs => (lookupS k fs).getD .pyNone
  | _ => .pyNone

/-- `d.get(k, default)` where a non-dict receiver raises `AttributeError`
(modelled as `none`, the raising outcome). -/
def pyGetD (d : PyVal) (k : String) (default : PyVal) : Option PyVal :=
  match d with
  | .vdict fs => some ((lookupS k fs).getD default)
  | _ => none

/-- Key presence: `some v` iff the dict has the field (even if bound to
`None`); `none` if the field is absent or the receiver is not a dict. -/
def pyGetOpt (d : PyVal) (k : String) : Option PyVal :=
  match d with
  | .vdict fs => lookupS k fs
  | _ => none

/-- Value of a decimal digit string, most significant first. -/
def digitsVal (cs : List Char) : Nat :=
  cs.foldl (fun acc c => 10 * acc + c.toNat - '0'.toNat) 0

/-- Fractional value of the digit string after the decimal point. -/
def fracVal (cs : List Char) : ℚ :=
  (digitsVal cs : ℚ) / ((10 : ℚ) ^ cs.length)

/-- Parse an optional exponent suffix (nothing, or `e`/`E`, optional sign,
digits) applied to `base`; any other trailing characters fail the parse. -/
def parseExpSuffix (base : ℚ) (cs : List Char) : Option ℚ :=
  match cs with
  | [] => some base
  | e :: rest =>
    if e = 'e' ∨ e = 'E' then
      let (sgn, digs) :=
        match rest with
        | '+' :: r => ((1 : Int), r)
        | '-' :: r => ((-1 : Int), r)
        | r => ((1 : Int), r)
      if digs ≠ [] ∧ digs.all Char.isDigit then
        some (base * (10 : ℚ) ^ (sgn * (digitsVal digs : Int)))
      else none
    else none

/-- Parse the unsigned body of a Python float literal: digits, digits `.`
digits, digits `.`, or `.` digits, with an optional exponent. -/
def parseFloatBody (cs : List Char) : Option ℚ :=
  let intPart := cs.takeWhile Char.isDigit
  let rest := cs.dropWhile Char.isDigit
  match rest with
  | '.' :: rest2 =>
    let fracPart := rest2.takeWhile Char.isDigit
    let rest3 := rest2.dropWhile Char.isDigit
    if intPart = [] ∧ fracPart = [] then none
    else parseExpSuffix ((digitsVal intPart : ℚ) + fracVal fracPart) rest3
  | _ =>
    if intPart = [] then none
    else parseExpSuffix (digitsVal intPart : ℚ) rest

/-- ASCII whitespace as stripped by Python's `float(str)` conversion. -/
def isPySpace (c : Char) : Bool :=
  c = ' ' ∨ c = '\t' ∨ c = '\n' ∨ c = '\r' ∨ c = '\x0b' ∨ c = '\x0c'

/-- Strip leading and trailing whitespace from a character list. -/
def trimChars (cs : List Char) : List Char :=
  ((cs.dropWhile isPySpace).reverse.dropWhile isPySpace).reverse

/-- Python `float(s)` on a string: strip surrounding whitespace, optional
sign, then a decimal literal.  The special spellings `inf`/`nan`/underscored
digits are not modelled; they parse in Python but every claim below only
uses the parse result through the Portugal bounding-box comparison, where
`inf` and `nan` fail the bounds exactly as a failed parse does. -/
def parsePyFloat (s : String) : Option ℚ :=
  match trimChars s.toList with
  | '+' :: cs => parseFloatBody cs
  | '-' :: cs => (parseFloatBody cs).map (fun q => -q)
  | cs => parseFloatBody cs

/-- Python `float(v)`: numbers convert exactly, booleans to 0/1, strings are
parsed, everything else (`None`, lists, dicts) raises — modelled as `none`. -/
def pyFloat : PyVal → Option ℚ
  | .vint n => some (n : ℚ)
  | .vfloat q => some q
  | .vbool b => some (if b then 1 else 0)
  | .vstr s => parsePyFloat s
  | _ => none

/-- Python `str(v)` for the value shapes that can reach `str(...)` in the
source (`trainNumber` fields).  `str(None) = "None"`; integers and strings
render as in Python; floats render their exact rational value (the model's
float abstraction); containers render their elements recursively (Python
quotes strings inside containers with `repr`; escape subtleties inside such
renderings are not modelled — no claim depends on composite train
numbers). -/
def pyStr : PyVal → String
  | .pyNone => "None"
  | .vbool true => "True"
  | .vbool false => "False"
  | .vint n => toString n
  | .vfloat q => if q.den = 1 then toString q.num ++ ".0" else toString q.num ++ "/" ++ toString q.den
  | .vstr s => s
  | .vlist xs => "[" ++ String.intercalate ", " (xs.attach.map (fun x => pyStr x.1)) ++ "]"
  | .vdict fs => "\x7b" ++ String.intercalate ", " (fs.attach.map (fun f => "'" ++ f.1.1 ++ "': " ++ pyStr f.1.2)) ++ "\x7d"
decreasing_by
  · have h1 := List.sizeOf_lt_of_mem x.2
    simp only [PyVal.vlist.sizeOf_spec]
    omega
  · have h1 := List.sizeOf_lt_of_mem f.2
    have h2 : sizeOf f.1.2 < sizeOf f.1 := by
      rcases f with ⟨⟨a, b⟩, hf⟩
      simp only [Prod.mk.sizeOf_spec]
      omega
    simp only [PyVal.vdict.sizeOf_spec]
    omega

/-- `TrainDataService._has_valid_coordinates`: the latitude and longitude
fields must be truthy, `float(...)` must succeed on both, and the parsed
values must lie in the Portugal bounding box
`36.0 <= lat <= 42.5` and `-10.0 <= lng <= -6.0`. -/
def hasValidCoordinates (train_details : PyVal) : Bool :=
  if ¬ pyTruthy (pyGet train_details "latitude") ∨ ¬ pyTruthy (pyGet train_details "longitude") then
    false
  else
    match pyFloat (pyGet train_details "latitude"), pyFloat (pyGet train_details "longitude") with
    | some lat_float, some lng_float =>
      decide ((36 ≤ lat_float ∧ lat_float ≤ 42.5) ∧ (-10 ≤ lng_float ∧ lng_float ≤ -6))
    | _, _ => false

/-- Python iteration `for x in v`: lists yield their items, dicts their keys,
strings their characters (as 1-character strings); other values raise
`TypeError`, modelled as `none`. -/
def pyIter : PyVal → Option (List PyVal)
  | .vlist xs => some xs
  | .vdict fs => some (fs.map (fun f => .vstr f.1))
  | .vstr s => some (s.toList.map (fun c => .vstr (String.mk [c])))
  | _ => none

/-- `train['source_station'] = station_id` inside the station-collection loop
of `_fetch_all_trains_parallel`: item assignment succeeds only on dicts
(anything else raises `TypeError`, modelled as `none`). -/
def tagTrain (station_id : String) (train : PyVal) : Option PyVal :=
  match train with
  | .vdict fs => some (.vdict (dictSet fs "source_station" (.vstr station_id)))
  | _ => none

/-- The inner loop of `_fetch_all_trains_parallel` lines 112-118 for one
completed station future: tag each yielded train with its source station and
append it; a raise mid-loop (non-dict item) is caught by the surrounding
per-station `except`, keeping the trains appended so far and dropping the
rest of that station's items. -/
def tagTrainsLoop (station_id : String) : List PyVal → List PyVal
  | [] => []
  | t :: rest =>
    match tagTrain station_id t with
    | some t' => t' :: tagTrainsLoop station_id rest
    | none => []

/-- Collection phase of `_fetch_all_trains_parallel`: fold the per-station
results (in future-completion order, which is a parameter of the model) into
the combined `all_trains` list.  A payload that is not iterable contributes
nothing (the `TypeError` from `for` is caught per station). -/
def collectAllTrains (stationResults : List (String × PyVal)) : List PyVal :=
  stationResults.foldl
    (fun all_trains sr =>
      match pyIter sr.2 with
      | some items => all_trains ++ tagTrainsLoop sr.1 items
      | none => all_trains)
    []

/-- The dedup key of a collected summary: `str(train.get('trainNumber'))`
(line 123); a missing field renders as the string `"None"`. -/
def trainKey (train : PyVal) : String :=
  pyStr (pyGet train "trainNumber")

/-- One step of the dedup loop (lines 122-125): keep the summary only if its
key is truthy (non-empty) and not yet present; first occurrence wins. -/
def dedupStep (unique_trains : List (String × PyVal)) (train : PyVal) :
    List (String × PyVal) :=
  let train_id := trainKey train
  if train_id ≠ "" ∧ (lookupS train_id unique_trains).isNone then
    unique_trains ++ [(train_id, train)]
  else unique_trains

/-- `unique_trains` (lines 121-125): dedup of the combined summary list by
`str(trainNumber)`, first occurrence winning, insertion-ordered. -/
def uniqueTrains (all_trains : List PyVal) : List (String × PyVal) :=
  all_trains.foldl dedupStep []

/-- Per-stop body of `_extract_route_coordinates` (lines 243-251): a non-dict
stop raises `AttributeError` at `stop.get` (not caught inside the function,
modelled as `none` for the whole extraction); a stop with falsy latitude or
longitude is skipped; `float` failures are caught per stop and skipped. -/
def routeLoop : List PyVal → Option (List PyVal)
  | [] => some []
  | stop :: rest =>
    match stop with
    | .vdict fs => do
      let lat := pyGet (.vdict fs) "latitude"
      let lng := pyGet (.vdict fs) "longitude"
      let tail ← routeLoop rest
      if pyTruthy lat ∧ pyTruthy lng then
        match pyFloat lng, pyFloat lat with
        | some lngf, some latf => some (.vlist [.vfloat lngf, .vfloat latf] :: tail)
        | _, _ => some tail
      else some tail
    | _ => none

/-- `_extract_route_coordinates`: the ordered `[lng, lat]` pairs of the stops
with truthy, float-parsable coordinates. -/
def extractRouteCoordinates (train_details : PyVal) : Option PyVal := do
  let train_stops ← pyGetD train_details "trainStops" (.vlist [])
  let items ← pyIter train_stops
  let coords ← routeLoop items
  some (.vlist coords)

/-- The fields `_process_train_data` derives from the basic summary
(`train_basic`), lines 209 and 216-230 of the source. -/
structure SummaryFields where
  serviceCode : PyVal
  serviceName : PyVal
  delay : PyVal
  origin : PyVal
  destination : PyVal
  platform : PyVal
  occupancy : PyVal
  eta : PyVal
  etd : PyVal
  arrivalTime : PyVal
  departureTime : PyVal

/-- `service_info = train_basic.get('trainService', {})` and the two lookups
on it (lines 209, 217-218). -/
def extractServiceInfo (train_basic : PyVal) : Option (PyVal × PyVal) := do
  let service_info ← pyGetD train_basic "trainService" (.vdict [])
  let code ← pyGetD service_info "code" (.vstr "T")
  let designation ← pyGetD service_info "designation" (.vstr "Train")
  some (code, designation)

/-- `train_basic.get('trainOrigin', {}).get('designation', 'Unknown')` and
the same for the destination (lines 223-224). -/
def extractOriginDestination (train_basic : PyVal) : Option (PyVal × PyVal) := do
  let trainOrigin ← pyGetD train_basic "trainOrigin" (.vdict [])
  let origin ← pyGetD trainOrigin "designation" (.vstr "Unknown")
  let trainDest ← pyGetD train_basic "trainDestination" (.vdict [])
  let destination ← pyGetD trainDest "designation" (.vstr "Unknown")
  some (origin, destination)

/-- The summary-derived entries of the record literal of
`_process_train_data` (one helper per straight-line slice of the Python
body; the slices are pure lookups, so their sequencing is observationally
the textual order of the literal). -/
def extractSummaryFields (train_basic : PyVal) : Option SummaryFields := do
  let svc ← extractServiceInfo train_basic
  let delayRaw ← pyGetD train_basic "delay" (.vint 0)
  let od ← extractOriginDestination train_basic
  let platform ← pyGetD train_basic "platform" .pyNone
  let occupancy ← pyGetD train_basic "occupancy" .pyNone
  let eta ← pyGetD train_basic "eta" .pyNone
  let etd ← pyGetD train_basic "etd" .pyNone
  let arrivalTime ← pyGetD train_basic "arrivalTime" .pyNone
  let departureTime ← pyGetD train_basic "departureTime" .pyNone
  some {
    serviceCode := svc.1, serviceName := svc.2,
    delay := if pyTruthy delayRaw then delayRaw else .vint 0,
    origin := od.1, destination := od.2,
    platform := platform, occupancy := occupancy,
    eta := eta, etd := etd,
    arrivalTime := arrivalTime, departureTime := departureTime }

/-- The fields `_process_train_data` derives from the detail payload
(`train_details`), lines 212, 219-221, 226, 231-232. -/
structure DetailFields where
  trainStops : PyVal
  lat : ℚ
  lng : ℚ
  status : PyVal
  occupancy : PyVal
  route : PyVal

/-- The detail-derived entries of the record literal of
`_process_train_data`; a failing `float` or a raise inside
`_extract_route_coordinates` propagates (modelled as `none`). -/
def extractDetailFields (train_details : PyVal) : Option DetailFields := do
  let train_stops ← pyGetD train_details "trainStops" (.vlist [])
  let latf ← pyFloat (pyGet train_details "latitude")
  let lngf ← pyFloat (pyGet train_details "longitude")
  let statusV ← pyGetD train_details "status" (.vstr "UNKNOWN")
  let occD ← pyGetD train_details "occupancy" .pyNone
  let route ← extractRouteCoordinates train_details
  some { trainStops := train_stops, lat := latf, lng := lngf,
         status := statusV, occupancy := occD, route := route }

/-- `_process_train_data` (lines 207-236): assemble the published record from
the basic summary and the detail payload.  Any `.get` on a non-dict
intermediate, any failing `float`, or a raise inside the route extraction
propagates to the per-train `except` of the caller, modelled as `none`.
`now` is the `time.time()` value stored as `lastUpdate`.  `occupancy` is
`train_basic.get('occupancy') or train_details.get('occupancy')`. -/
def processTrainData (train_basic train_details : PyVal) (now : ℚ) : Option PyVal := do
  let s ← extractSummaryFields train_basic
  let d ← extractDetailFields train_details
  some (.vdict [
    ("trainId", .vstr (pyStr (pyGet train_basic "trainNumber"))),
    ("trainNumber", pyGet train_basic "trainNumber"),
    ("serviceCode", s.serviceCode),
    ("serviceName", s.serviceName),
    ("lat", .vfloat d.lat),
    ("lng", .vfloat d.lng),
    ("status", d.status),
    ("delay", s.delay),
    ("origin", s.origin),
    ("destination", s.destination),
    ("platform", s.platform),
    ("occupancy", if pyTruthy s.occupancy then s.occupancy else d.occupancy),
    ("eta", s.eta),
    ("etd", s.etd),
    ("arrivalTime", s.arrivalTime),
    ("departureTime", s.departureTime),
    ("route", d.route),
    ("trainStops", d.trainStops),
    ("sourceStation", pyGet train_basic "source_station"),
    ("lastUpdate", .vfloat now),
    ("fullDetails", train_details)])

/-- The detail fan-in loop of `_fetch_all_trains_parallel` (lines 133-141).
`details` maps each unique train id to the outcome of its
`_fetch_train_details_cached` future (`none` when the fetch failed or the
future raised); this oracle abstracts the concurrent cache, which is
modelled operationally by `fetchTrainDetailsCached` below.  A train is
published only if its details are truthy, pass `_has_valid_coordinates`, and
`_process_train_data` does not raise; `new_trains_data[train_id] = ...` is
dict assignment.  The loop runs in future-completion order; keys of
`unique_trains` are distinct, so the resulting key-to-record mapping does
not depend on that order and the model iterates in dict order. -/
def snapshotEntry (details : String → Option PyVal) (now : ℚ)
    (train_id : String) (train_basic : PyVal) : Option PyVal :=
  match details train_id with
  | some train_details =>
    if pyTruthy train_details ∧ hasValidCoordinates train_details then
      processTrainData train_basic train_details now
    else none
  | none => none

/-- One step of the detail fan-in loop: run `snapshotEntry` and, when it
yields a record, perform `new_trains_data[train_id] = processed_train`. -/
def snapStep (details : String → Option PyVal) (now : ℚ)
    (new_trains_data : List (String × PyVal)) (ut : String × PyVal) :
    List (String × PyVal) :=
  match snapshotEntry details now ut.1 ut.2 with
  | some processed_train => dictSet new_trains_data ut.1 processed_train
  | none => new_trains_data

def buildSnapshot (details : String → Option PyVal)
    (unique_trains : List (String × PyVal)) (now : ℚ) : List (String × PyVal) :=
  unique_trains.foldl (snapStep details now) []

/-- `_fetch_all_trains_parallel` as a function of the cycle's external
inputs: the per-station payloads (in completion order), the detail oracle,
and the current time.  Its value is the snapshot assigned to
`self.trains_data` at line 143 when the cycle completes. -/
def fetchAllTrainsParallel (stationResults : List (String × PyVal))
    (details : String → Option PyVal) (now : ℚ) : List (String × PyVal) :=
  buildSnapshot details (uniqueTrains (collectAllTrains stationResults)) now

/-- Outcome of one `requests.get` + `raise_for_status` + `.json()` sequence
in `_fetch_trains_at_station`: the request can raise (network error or
timeout), or return a response with a status code and a payload (`none` when
the body is not valid JSON, so `.json()` raises). -/
inductive HttpOutcome where
  | netError
  | response (status : Nat) (payload : Option PyVal)

/-- `_fetch_trains_at_station` (lines 146-155): return the parsed payload on
success; every failure (network error, 4xx/5xx status via
`raise_for_status`, malformed JSON) is caught and yields the empty list.
The function is total: no exception escapes. -/
def fetchTrainsAtStation (outcome : HttpOutcome) : PyVal :=
  match outcome with
  | .netError => .vlist []
  | .response status payload =>
    if 400 ≤ status ∧ status < 600 then .vlist []
    else
      match payload with
      | some v => v
      | none => .vlist []

/-- A cache entry: `(data, cache_time)` as stored in
`self.cached_train_details`. -/
abbrev Cache := List (String × (PyVal × ℚ))

/-- Outcome of the upstream fetch inside `_fetch_train_details_cached`:
either the parsed JSON payload or a raise (network error, bad status,
malformed body). -/
inductive FetchOutcome where
  | ok (data : PyVal)
  | err

/-- `_fetch_train_details_cached` (lines 157-188) as a state transformer:
given the cache, the train id, the current time and the upstream outcome
(consulted only if the function actually fetches), produce the returned
value, the new cache, and whether an upstream call was issued.
Cache hit: an entry of age strictly below 300 s is returned with no call.
Otherwise the fetch runs; on success the entry `(data, now)` is stored, and
if the cache then holds more than 1000 entries every entry of age strictly
above 600 s is deleted; on failure `None` is returned and the cache is left
untouched. -/
def fetchTrainDetailsCached (cache : Cache) (train_id : String) (now : ℚ)
    (fetch : FetchOutcome) : Option PyVal × Cache × Bool :=
  match lookupS train_id cache with
  | some (cached_data, cache_time) =>
    if now - cache_time < 300 then (some cached_data, cache, false)
    else
      match fetch with
      | .ok data =>
        let cache1 := dictSet cache train_id (data, now)
        let cache2 :=
          if 1000 < cache1.length then
            cache1.filter (fun e => decide (now - e.2.2 ≤ 600))
          else cache1
        (some data, cache2, true)
      | .err => (none, cache, true)
  | none =>
    match fetch with
    | .ok data =>
      let cache1 := dictSet cache train_id (data, now)
      let cache2 :=
        if 1000 < cache1.length then
          cache1.filter (fun e => decide (now - e.2.2 ≤ 600))
        else cache1
      (some data, cache2, true)
    | .err => (none, cache, true)

/-- The outcome of one iteration's call to `_fetch_all_trains_parallel` in
`_fetch_loop`: either the cycle ran to completion with the given external
inputs, or it raised an unexpected error at the outer level (anywhere before
the snapshot assignment of line 143). -/
inductive CycleOutcome where
  | completed (stationResults : List (String × PyVal))
      (details : String → Option PyVal) (now : ℚ)
  | raised

/-- One iteration of the `while self.running` loop of `_fetch_loop`
(lines 68-74): on completion the snapshot is replaced and the loop sleeps
10 s; on an outer-level error the exception is caught, the snapshot keeps
its previous value, and the loop sleeps 30 s.  Returns the new value of
`self.trains_data` and the sleep duration in seconds. -/
def fetchLoopIteration (trains_data : List (String × PyVal))
    (outcome : CycleOutcome) : List (String × PyVal) × Nat :=
  match outcome with
  | .completed stationResults details now =>
    (fetchAllTrainsParallel stationResults details now, 10)
  | .raised => (trains_data, 30)

/-- The mutable fields of `TrainDataService` relevant to the lifecycle
claims: the `running` flag and the worker-thread handle (`none` until the
first `start`). -/
structure ServiceState where
  running : Bool
  thread : Option Unit

/-- `TrainDataService.__init__` lifecycle fields: not running, no thread. -/
def ServiceState.init : ServiceState :=
  { running := false, thread := none }

/-- `start` (lines 46-52): if not already running, set the flag and spawn the
worker thread. -/
def ServiceState.start (s : ServiceState) : ServiceState :=
  if s.running then s else { running := true, thread := some () }

/-- `stop` (lines 54-59): clear the flag, then join the thread when one
exists.  `join` blocks until the worker exits and changes no service field;
the worker's loop condition is `self.running`, already `false` here, so it
performs no further iteration (`fetchLoopContinues`) and `join` returns.
When `thread` is `None` (stop before any start) the join is skipped. -/
def ServiceState.stop (s : ServiceState) : ServiceState :=
  { s with running := false }

/-- The `while self.running` guard of `_fetch_loop` (line 68): whether the
worker starts another iteration. -/
def fetchLoopContinues (s : ServiceState) : Bool :=
  s.running

/-! ### Association-list lemmas -/

theorem lookupS_append {α : Type} (k : String) (l1 l2 : List (String × α)) :
    lookupS k (l1 ++ l2) = ((lookupS k l1).rec (lookupS k l2) fun v => some v) := by
  induction l1 with
  | nil => simp [lookupS]
  | cons e rest ih =>
    obtain ⟨k', v⟩ := e
    by_cases h : k' = k <;> simp [lookupS, h, ih]

theorem lookupS_singleton {α : Type} (k k' : String) (v : α) :
    lookupS k [(k', v)] = if k' = k then some v else none := by
  by_cases h : k' = k <;> simp [lookupS, h]

theorem lookupS_dictSet_self {α : Type} (l : List (String × α)) (k : String) (v : α) :
    lookupS k (dictSet l k v) = some v := by
  induction l with
  | nil => simp [dictSet, lookupS]
  | cons e rest ih =>
    obtain ⟨k', v'⟩ := e
    by_cases h : k' = k <;> simp [dictSet, lookupS, h, ih]

theorem lookupS_dictSet_ne {α : Type} (l : List (String × α)) (k k' : String) (v : α)
    (h : k' ≠ k) : lookupS k' (dictSet l k v) = lookupS k' l := by
  have h' : ¬ (k = k') := fun hh => h hh.symm
  induction l with
  | nil => simp [dictSet, lookupS, h']
  | cons e rest ih =>
    obtain ⟨k'', v'⟩ := e
    by_cases h2 : k'' = k
    · subst h2
      simp [dictSet, lookupS, h']
    · by_cases h3 : k'' = k' <;> simp [dictSet, lookupS, h, h2, h3, h', ih]

theorem length_le_dictSet {α : Type} (l : List (String × α)) (k : String) (v : α) :
    l.length ≤ (dictSet l k v).length := by
  induction l with
  | nil => simp [dictSet]
  | cons e rest ih =>
    obtain ⟨k', v'⟩ := e
    by_cases h : k' = k <;> simp [dictSet, h] <;> omega

theorem mem_dictSet {α : Type} {l : List (String × α)} {k : String} {v : α} {e : String × α}
    (h : e ∈ dictSet l k v) : e ∈ l ∨ e = (k, v) := by
  induction l with
  | nil => simp [dictSet] at h; simp [h]
  | cons e' rest ih =>
    obtain ⟨k', v'⟩ := e'
    by_cases h2 : k' = k
    · simp [dictSet, h2] at h
      rcases h with h | h
      · right; simp [h]
      · left; simp [h]
    · simp [dictSet, h2] at h
      rcases h with h | h
      · left; simp [h]
      · rcases ih h with h3 | h3
        · left; simp [h3]
        · right; exact h3

theorem lookupS_eq_none_iff {α : Type} (k : String) (l : List (String × α)) :
    lookupS k l = none ↔ k ∉ l.map Prod.fst := by
  induction l with
  | nil => simp [lookupS]
  | cons e rest ih =>
    obtain ⟨k', v⟩ := e
    by_cases h : k' = k <;> simp [lookupS, h, ih] <;> tauto

theorem lookupS_mem {α : Type} {k : String} {l : List (String × α)} {v : α}
    (h : lookupS k l = some v) : (k, v) ∈ l := by
  induction l with
  | nil => simp [lookupS] at h
  | cons e rest ih =>
    obtain ⟨k', v'⟩ := e
    by_cases h2 : k' = k
    · subst h2
      simp [lookupS] at h
      simp [h]
    · simp [lookupS, h2] at h
      simp [ih h]

theorem lookupS_isSome_iff {α : Type} (k : String) (l : List (String × α)) :
    (lookupS k l).isSome ↔ k ∈ l.map Prod.fst := by
  rcases ho : lookupS k l with _ | v
  · simp [(lookupS_eq_none_iff k l).mp ho]
  · simp only [Option.isSome_some, true_iff, List.mem_map]
    exact ⟨(k, v), lookupS_mem ho, rfl⟩

/-- First pair of an association list whose key is `k`, as a `find?`. -/
theorem find?_eq_lookupS {α : Type} (k : String) (l : List (String × α)) :
    l.find? (fun e => e.1 == k) = (lookupS k l).map (fun v => (k, v)) := by
  induction l with
  | nil => simp [lookupS]
  | cons e rest ih =>
    obtain ⟨k', v⟩ := e
    by_cases h : k' = k
    · subst h; simp [lookupS, List.find?]
    · have hb : (k' == k) = false := by simp [h]
      simp [lookupS, List.find?, h, hb, ih]

/-! ### Deduplication lemmas (lines 121-125) -/

theorem dedup_fold_lookup (l : List PyVal) (acc : List (String × PyVal)) (k : String) :
    lookupS k (l.foldl dedupStep acc) =
      match lookupS k acc with
      | some t => some t
      | none => if k = "" then none else l.find? (fun t => trainKey t == k) := by
  induction l generalizing acc with
  | nil =>
    rcases h : lookupS k acc with _ | t <;> simp [h]
  | cons t l ih =>
    rw [List.foldl_cons, ih]
    by_cases hc : trainKey t ≠ "" ∧ (lookupS (trainKey t) acc).isNone
    · have hstep : dedupStep acc t = acc ++ [(trainKey t, t)] := by
        simp only [dedupStep]
        rw [if_pos hc]
      rcases h : lookupS k acc with _ | v
      · rw [hstep, lookupS_append, lookupS_singleton, h]
        by_cases htk : trainKey t = k
        · have hk : k ≠ "" := htk ▸ hc.1
          have hb : (trainKey t == k) = true := by simp [htk]
          simp [htk, hk, List.find?, hb]
        · have hb : (trainKey t == k) = false := by simp [htk]
          simp [htk, List.find?, hb]
      · rw [hstep, lookupS_append, h]
    · have hstep : dedupStep acc t = acc := by
        simp only [dedupStep]
        rw [if_neg hc]
      rcases h : lookupS k acc with _ | v
      · rw [hstep, h]
        by_cases hk : k = ""
        · simp [hk]
        · have htk : trainKey t ≠ k := by
            intro he
            rcases not_and_or.mp hc with h1 | h1
            · exact hk (he ▸ not_not.mp h1)
            · rw [he] at h1
              exact h1 (by simp [h])
          have hb : (trainKey t == k) = false := by simp [htk]
          simp [hk, List.find?, hb]
      · rw [hstep, h]

theorem uniqueTrains_lookup (l : List PyVal) (k : String) :
    lookupS k (uniqueTrains l) =
      if k = "" then none else l.find? (fun t => trainKey t == k) := by
  have h := dedup_fold_lookup l [] k
  simpa [uniqueTrains, lookupS] using h

theorem dedup_fold_keys_nodup (l : List PyVal) (acc : List (String × PyVal))
    (h : (acc.map Prod.fst).Nodup) :
    (((l.foldl dedupStep acc)).map Prod.fst).Nodup := by
  induction l generalizing acc with
  | nil => simpa using h
  | cons t l ih =>
    rw [List.foldl_cons]
    apply ih
    by_cases hc : trainKey t ≠ "" ∧ (lookupS (trainKey t) acc).isNone
    · have hnm : trainKey t ∉ acc.map Prod.fst := by
        have h2 := hc.2
        rw [Option.isNone_iff_eq_none] at h2
        exact (lookupS_eq_none_iff _ _).mp h2
      have hstep : dedupStep acc t = acc ++ [(trainKey t, t)] := by
        simp only [dedupStep]
        rw [if_pos hc]
      rw [hstep, List.map_append, List.map_cons, List.map_nil]
      exact h.append (List.nodup_singleton _) (by simpa [List.disjoint_singleton] using hnm)
    · have hstep : dedupStep acc t = acc := by
        simp only [dedupStep]
        rw [if_neg hc]
      rw [hstep]
      exact h

theorem uniqueTrains_keys_nodup (l : List PyVal) :
    ((uniqueTrains l).map Prod.fst).Nodup :=
  dedup_fold_keys_nodup l [] (by simp)

theorem uniqueTrains_count_key (l : List PyVal) (k : String)
    (h : (lookupS k (uniqueTrains l)).isSome) :
    ((uniqueTrains l).map Prod.fst).count k = 1 :=
  List.count_eq_one_of_mem (uniqueTrains_keys_nodup l) ((lookupS_isSome_iff _ _).mp h)

theorem uniqueTrains_count_key_zero (l : List PyVal) (k : String)
    (h : lookupS k (uniqueTrains l) = none) :
    ((uniqueTrains l).map Prod.fst).count k = 0 :=
  List.count_eq_zero.mpr ((lookupS_eq_none_iff _ _).mp h)

/-! ### Snapshot-assembly lemmas (lines 133-143) -/

theorem snap_fold_preserve (d : String → Option PyVal) (now : ℚ)
    (u : List (String × PyVal)) (acc : List (String × PyVal)) (tid : String)
    (h : tid ∉ u.map Prod.fst) :
    lookupS tid (u.foldl (snapStep d now) acc) = lookupS tid acc := by
  induction u generalizing acc with
  | nil => rfl
  | cons ut u ih =>
    rw [List.foldl_cons]
    have h1 : ut.1 ≠ tid := by
      intro he
      exact h (by simp [he])
    have h2 : tid ∉ u.map Prod.fst := by
      intro hm
      exact h (by simp [hm])
    rw [ih _ h2]
    unfold snapStep
    rcases snapshotEntry d now ut.1 ut.2 with _ | rec
    · rfl
    · exact lookupS_dictSet_ne _ _ _ _ (fun he => h1 he.symm)

theorem snap_fold_lookup (d : String → Option PyVal) (now : ℚ)
    (u : List (String × PyVal)) (acc : List (String × PyVal)) (tid : String)
    (hnd : (u.map Prod.fst).Nodup) :
    lookupS tid (u.foldl (snapStep d now) acc) =
      match lookupS tid u with
      | some basic =>
        match snapshotEntry d now tid basic with
        | some rec => some rec
        | none => lookupS tid acc
      | none => lookupS tid acc := by
  induction u generalizing acc with
  | nil => rfl
  | cons ut u ih =>
    obtain ⟨k, basic⟩ := ut
    rw [List.foldl_cons]
    have hnd' : (k :: u.map Prod.fst).Nodup := by simpa using hnd
    by_cases hk : k = tid
    · subst hk
      have hnm : k ∉ u.map Prod.fst := (List.nodup_cons.mp hnd').1
      rw [snap_fold_preserve d now u _ k hnm]
      have hl : lookupS k ((k, basic) :: u) = some basic := by simp [lookupS]
      rw [hl]
      rcases he : snapshotEntry d now k basic with _ | rec
      · simp only [snapStep, he]
      · simp only [snapStep, he, lookupS_dictSet_self]
    · have hnd2 : (u.map Prod.fst).Nodup := (List.nodup_cons.mp hnd').2
      rw [ih _ hnd2]
      have hl : lookupS tid ((k, basic) :: u) = lookupS tid u := by
        simp [lookupS, hk]
      rw [hl]
      have hpres : lookupS tid (snapStep d now acc (k, basic)) = lookupS tid acc := by
        unfold snapStep
        rcases he : snapshotEntry d now (k, basic).1 (k, basic).2 with _ | rec
        · rfl
        · exact lookupS_dictSet_ne _ _ _ _ (fun heq => hk heq.symm)
      rw [hpres]

/-- The key-to-record mapping published by a completed cycle: `tid` is bound
in the snapshot exactly to the record its deduplicated summary and detail
outcome produce. -/
theorem fetchAllTrainsParallel_lookup (stationResults : List (String × PyVal))
    (d : String → Option PyVal) (now : ℚ) (tid : String) :
    lookupS tid (fetchAllTrainsParallel stationResults d now) =
      match lookupS tid (uniqueTrains (collectAllTrains stationResults)) with
      | some basic => snapshotEntry d now tid basic
      | none => none := by
  unfold fetchAllTrainsParallel buildSnapshot
  rw [snap_fold_lookup d now _ [] tid (uniqueTrains_keys_nodup _)]
  rcases lookupS tid (uniqueTrains (collectAllTrains stationResults)) with _ | basic
  · rfl
  · rcases he : snapshotEntry d now tid basic with _ | rec <;> simp [he, lookupS]

/-! ### Coordinate validation: claim-level characterization -/

/-- The validation C1 ascribes to published records: the latitude and
longitude fields are present, `float` parses both, and the parsed values lie
in the bounding box `[36.0, 42.5] x [-10.0, -6.0]`. -/
def coordsPresentParsedInBounds (td : PyVal) : Prop :=
  ∃ la lo qla qlo,
    pyGetOpt td "latitude" = some la ∧ pyGetOpt td "longitude" = some lo ∧
    pyFloat la = some qla ∧ pyFloat lo = some qlo ∧
    36 ≤ qla ∧ qla ≤ 42.5 ∧ -10 ≤ qlo ∧ qlo ≤ -6

theorem pyGetOpt_of_truthy (td : PyVal) (k : String)
    (h : pyTruthy (pyGet td k) = true) : pyGetOpt td k = some (pyGet td k) := by
  cases td with
  | vdict fs =>
    rcases hl : lookupS k fs with _ | v
    · simp [pyGet, hl, pyTruthy] at h
    · simp [pyGet, pyGetOpt, hl]
  | _ => simp [pyGet, pyTruthy] at h

theorem pyGet_of_pyGetOpt {td : PyVal} {k : String} {v : PyVal}
    (h : pyGetOpt td k = some v) : pyGet td k = v := by
  cases td with
  | vdict fs =>
    simp only [pyGetOpt] at h
    simp [pyGet, h]
  | _ => simp [pyGetOpt] at h

theorem pyTruthy_of_pyFloat {v : PyVal} {q : ℚ} (h : pyFloat v = some q) (hq : q ≠ 0) :
    pyTruthy v = true := by
  cases v with
  | vint n =>
    simp only [pyFloat, Option.some.injEq] at h
    simp only [pyTruthy, bne_iff_ne, ne_eq, decide_eq_true_eq]
    intro he
    apply hq
    rw [← h, he]
    norm_num
  | vfloat q2 =>
    simp only [pyFloat, Option.some.injEq] at h
    simp only [pyTruthy, bne_iff_ne, ne_eq, decide_eq_true_eq]
    intro he
    exact hq (h ▸ he)
  | vbool b =>
    cases b
    · simp only [pyFloat, Bool.false_eq_true, if_false, Option.some.injEq] at h
      exact (hq h.symm).elim
    · rfl
  | vstr s =>
    simp only [pyTruthy, ne_eq, decide_eq_true_eq]
    intro he
    subst he
    have hnone : pyFloat (PyVal.vstr "") = none := rfl
    rw [hnone] at h
    exact Option.noConfusion h
  | pyNone => exact Option.noConfusion h
  | vlist xs => exact Option.noConfusion h
  | vdict fs => exact Option.noConfusion h

/-- `_has_valid_coordinates` succeeds exactly when the claim-level
present/parse/bounds conditions hold: the truthiness pre-check of the source
rejects no value that is present, parseable and in bounds (zero and the
empty string are out of bounds or unparseable anyway). -/
theorem hasValidCoordinates_eq_true_iff (td : PyVal) :
    hasValidCoordinates td = true ↔ coordsPresentParsedInBounds td := by
  constructor
  · intro h
    unfold hasValidCoordinates at h
    split at h
    · exact absurd h (by simp)
    · rename_i hcond
      rw [not_or, not_not, not_not] at hcond
      split at h
      · rename_i qla qlo hfla hflo
        refine ⟨pyGet td "latitude", pyGet td "longitude", qla, qlo,
          pyGetOpt_of_truthy td "latitude" hcond.1, pyGetOpt_of_truthy td "longitude" hcond.2,
          hfla, hflo, ?_⟩
        have hb := of_decide_eq_true h
        exact ⟨hb.1.1, hb.1.2, hb.2.1, hb.2.2⟩
      · exact absurd h (by simp)
  · rintro ⟨la, lo, qla, qlo, hla, hlo, hfla, hflo, h1, h2, h3, h4⟩
    have hgla : pyGet td "latitude" = la := pyGet_of_pyGetOpt hla
    have hglo : pyGet td "longitude" = lo := pyGet_of_pyGetOpt hlo
    have htla : pyTruthy la = true := by
      refine pyTruthy_of_pyFloat hfla (fun he => ?_)
      rw [he] at h1
      norm_num at h1
    have htlo : pyTruthy lo = true := by
      refine pyTruthy_of_pyFloat hflo (fun he => ?_)
      rw [he] at h4
      norm_num at h4
    unfold hasValidCoordinates
    rw [hgla, hglo, htla, htlo, hfla, hflo]
    simp only [not_true, or_self, if_false]
    exact decide_eq_true ⟨⟨h1, h2⟩, ⟨h3, h4⟩⟩

/-! ### C1: published records have validated coordinates -/

/-- C1: for every completed poll cycle, a train id is bound in the published
snapshot only if the detail record fetched for it has latitude and longitude
fields that are present, parse as numbers, and satisfy
`36.0 <= lat <= 42.5` and `-10.0 <= lng <= -6.0`; a detail record failing
any of these checks yields no snapshot entry for that train id. -/
theorem snapshot_coords_validated (stationResults : List (String × PyVal))
    (d : String → Option PyVal) (now : ℚ) (tid : String) :
    ((lookupS tid (fetchAllTrainsParallel stationResults d now)).isSome →
      ∃ td, d tid = some td ∧ coordsPresentParsedInBounds td) ∧
    (∀ td, d tid = some td → ¬ coordsPresentParsedInBounds td →
      lookupS tid (fetchAllTrainsParallel stationResults d now) = none) := by
  constructor
  · intro h
    rw [fetchAllTrainsParallel_lookup] at h
    rcases hb : lookupS tid (uniqueTrains (collectAllTrains stationResults)) with _ | basic
    · rw [hb] at h
      simp at h
    · rw [hb] at h
      simp only [snapshotEntry] at h
      rcases hd : d tid with _ | td
      · rw [hd] at h
        simp at h
      · simp only [hd] at h
        refine ⟨td, rfl, ?_⟩
        by_cases hv : pyTruthy td = true ∧ hasValidCoordinates td = true
        · exact (hasValidCoordinates_eq_true_iff td).mp hv.2
        · rw [if_neg hv] at h
          simp at h
  · intro td hd hnv
    rw [fetchAllTrainsParallel_lookup]
    rcases hb : lookupS tid (uniqueTrains (collectAllTrains stationResults)) with _ | basic
    · rfl
    · simp only [snapshotEntry, hd]
      rw [if_neg]
      intro hv
      exact hnv ((hasValidCoordinates_eq_true_iff td).mp hv.2)

/-- Witness for C1: a concrete cycle with one station reporting train
`"123"` whose detail record carries in-bounds coordinates; the snapshot
entry exists and the theorem recovers the validated detail. -/
theorem snapshot_coords_validated_witness :
    ∃ td, (fun tid => if tid = "123"
        then some (PyVal.vdict [("latitude", .vint 38), ("longitude", .vint (-9)),
          ("trainStops", .vlist [])])
        else none) "123" = some td ∧ coordsPresentParsedInBounds td := by
  apply (snapshot_coords_validated
      [("S", .vlist [ .vdict [("trainNumber", .vstr "123")] ])]
      (fun tid => if tid = "123"
        then some (.vdict [("latitude", .vint 38), ("longitude", .vint (-9)),
          ("trainStops", .vlist [])])
        else none) 0 "123").1
  rw [fetchAllTrainsParallel_lookup]
  have hcol : collectAllTrains [("S", .vlist [ .vdict [("trainNumber", .vstr "123")] ])]
      = [ .vdict [("trainNumber", .vstr "123"), ("source_station", .vstr "S")] ] := by
    simp [collectAllTrains, pyIter, tagTrainsLoop, tagTrain, dictSet]
  rw [hcol]
  have hkey : trainKey (.vdict [("trainNumber", .vstr "123"), ("source_station", .vstr "S")])
      = "123" := by
    simp [trainKey, pyStr, pyGet, lookupS]
  have huniq : lookupS "123"
      (uniqueTrains [ .vdict [("trainNumber", .vstr "123"), ("source_station", .vstr "S")] ])
      = some (.vdict [("trainNumber", .vstr "123"), ("source_station", .vstr "S")]) := by
    rw [uniqueTrains_lookup]
    simp [List.find?, hkey]
  rw [huniq]
  have hvalid : hasValidCoordinates (.vdict [("latitude", .vint 38), ("longitude", .vint (-9)),
      ("trainStops", .vlist [])]) = true := by
    simp [hasValidCoordinates, pyGet, lookupS, pyTruthy, pyFloat]
    norm_num
  simp only [snapshotEntry, reduceIte]
  rw [hvalid]
  simp [pyTruthy, processTrainData, extractSummaryFields, extractServiceInfo,
    extractOriginDestination, extractDetailFields, extractRouteCoordinates, routeLoop,
    pyGetD, pyGet, pyIter, lookupS, pyFloat, Option.bind]

/-- The train ids submitted to the detail-fetch pool in one cycle
(lines 128-131): exactly the keys of `unique_trains`, one future each. -/
def detailFetchIds (all_trains : List PyVal) : List String :=
  (uniqueTrains all_trains).map Prod.fst

/-! ### C2: outer-level cycle error -/

/-- C2: if `_fetch_all_trains_parallel` raises an unexpected error at the
outer level, the previously published `trains_data` mapping is left exactly
as it was and the loop sleeps the 30-second backoff; a completed cycle
sleeps the normal 10 seconds. -/
theorem outer_error_preserves_snapshot (trains_data : List (String × PyVal)) :
    fetchLoopIteration trains_data .raised = (trains_data, 30) ∧
    (∀ stationResults d now,
      (fetchLoopIteration trains_data (.completed stationResults d now)).2 = 10) :=
  ⟨rfl, fun _ _ _ => rfl⟩

/-! ### C3: deduplication by train number -/

/-- C3 counterexample: a collected summary whose `trainNumber` is the empty
string is a summary whose train number appears in one collected summary, yet
the dedup key check (`if train_id`, line 124) drops it, `unique_trains`
stays empty, and no detail fetch at all is issued that cycle — not exactly
one. -/
theorem dedup_empty_key_counterexample :
    (PyVal.vdict [("trainNumber", .vstr "")]) ∈ [PyVal.vdict [("trainNumber", .vstr "")]] ∧
    trainKey (.vdict [("trainNumber", .vstr "")]) = "" ∧
    uniqueTrains [PyVal.vdict [("trainNumber", .vstr "")]] = [] ∧
    detailFetchIds [PyVal.vdict [("trainNumber", .vstr "")]] = [] := by
  refine ⟨by simp, ?_, ?_, ?_⟩
  · simp [trainKey, pyStr, pyGet, lookupS]
  · simp [uniqueTrains, dedupStep, trainKey, pyStr, pyGet, lookupS]
  · simp [detailFetchIds, uniqueTrains, dedupStep, trainKey, pyStr, pyGet, lookupS]

/-- C3 (amended): deduplication of the combined summary list is by
`str(trainNumber)` with first occurrence winning, for every train number
whose string rendering is non-empty (a summary rendering to the empty
string is dropped entirely, with no detail fetch — see the counterexample):
the kept summary for such a key is the first collected summary bearing it,
and exactly one detail fetch is issued for that key in the cycle. -/
theorem dedup_first_occurrence_wins (all_trains : List PyVal) (k : String)
    (hk : k ≠ "") :
    (∀ t, lookupS k (uniqueTrains all_trains) = some t →
      all_trains.find? (fun t2 => trainKey t2 == k) = some t ∧ trainKey t = k) ∧
    ((∃ t ∈ all_trains, trainKey t = k) →
      (detailFetchIds all_trains).count k = 1) := by
  constructor
  · intro t ht
    rw [uniqueTrains_lookup, if_neg hk] at ht
    refine ⟨ht, ?_⟩
    have hp := List.find?_some ht
    simpa using hp
  · rintro ⟨t, hmem, hkey⟩
    apply uniqueTrains_count_key
    rw [uniqueTrains_lookup, if_neg hk]
    rw [Option.isSome_iff_exists]
    have : ∃ x ∈ all_trains, (fun t2 => trainKey t2 == k) x = true :=
      ⟨t, hmem, by simp [hkey]⟩
    rcases List.find?_isSome.mpr this |> Option.isSome_iff_exists.mp with ⟨u, hu⟩
    exact ⟨u, hu⟩

/-- Witness for C3 (amended): two summaries for train `"123"` from different
stations; the first wins and one detail fetch is issued. -/
theorem dedup_first_occurrence_wins_witness :
    (List.find? (fun t2 => trainKey t2 == "123")
        [PyVal.vdict [("trainNumber", .vstr "123"), ("platform", .vstr "1")],
         PyVal.vdict [("trainNumber", .vstr "123"), ("platform", .vstr "2")]]
      = some (.vdict [("trainNumber", .vstr "123"), ("platform", .vstr "1")]) ∧
     trainKey (PyVal.vdict [("trainNumber", .vstr "123"), ("platform", .vstr "1")]) = "123") ∧
    (detailFetchIds
        [PyVal.vdict [("trainNumber", .vstr "123"), ("platform", .vstr "1")],
         PyVal.vdict [("trainNumber", .vstr "123"), ("platform", .vstr "2")]]).count "123" = 1 := by
  constructor
  · apply (dedup_first_occurrence_wins _ "123" (by simp)).1
    simp [uniqueTrains, dedupStep, trainKey, pyStr, pyGet, lookupS]
  · apply (dedup_first_occurrence_wins _ "123" (by simp)).2
    exact ⟨PyVal.vdict [("trainNumber", .vstr "123"), ("platform", .vstr "1")],
      by simp, by simp [trainKey, pyStr, pyGet, lookupS]⟩

/-! ### C6: the station fetcher absorbs all failures -/

/-- C6: `_fetch_trains_at_station` returns the upstream payload on a
successful response and the empty list on every failure — network error,
error status (4xx/5xx raised by `raise_for_status`), or malformed JSON
body; being a total function of the outcome, no exception propagates. -/
theorem station_fetch_absorbs_failures :
    (∀ v status, ¬ (400 ≤ status ∧ status < 600) →
      fetchTrainsAtStation (.response status (some v)) = v) ∧
    (fetchTrainsAtStation .netError = .vlist []) ∧
    (∀ status p, 400 ≤ status → status < 600 →
      fetchTrainsAtStation (.response status p) = .vlist []) ∧
    (∀ status, fetchTrainsAtStation (.response status none) = .vlist []) := by
  refine ⟨?_, rfl, ?_, ?_⟩
  · intro v status h
    simp [fetchTrainsAtStation, h]
  · intro status p h1 h2
    simp [fetchTrainsAtStation, h1, h2]
  · intro status
    by_cases h : 400 ≤ status ∧ status < 600 <;> simp [fetchTrainsAtStation, h]

/-- Witness for C6: a 200 response with a one-train payload is passed
through; a 404 and a network error yield the empty list. -/
theorem station_fetch_absorbs_failures_witness :
    fetchTrainsAtStation (.response 200 (some (.vlist [.vdict [("trainNumber", .vint 1)]])))
      = .vlist [.vdict [("trainNumber", .vint 1)]] ∧
    fetchTrainsAtStation (.response 404 (some (.vlist [.vdict [("trainNumber", .vint 1)]])))
      = .vlist [] := by
  constructor
  · exact station_fetch_absorbs_failures.1 _ 200 (by omega)
  · exact station_fetch_absorbs_failures.2.2.1 404 _ (by omega) (by omega)

/-! ### C8: stop is idempotent and safe in every state -/

/-- C8: `stop` only clears the `running` flag (and joins a thread whose loop
guard is that flag, hence already exiting): it is idempotent, leaves the
service stopped, is safe before any `start` (no thread to join), and after
it the worker loop performs no further iteration. -/
theorem stop_idempotent_safe :
    (∀ s, ServiceState.stop (ServiceState.stop s) = ServiceState.stop s) ∧
    (∀ s, (ServiceState.stop s).running = false) ∧
    (ServiceState.stop ServiceState.init).thread = none ∧
    (∀ s, fetchLoopContinues (ServiceState.stop s) = false) :=
  ⟨fun _ => rfl, fun _ => rfl, rfl, fun _ => rfl⟩

/-! ### C9: stale entry + failed refetch -/

/-- C9: when the cached entry for a train is stale (age at least 300 s) and
the fresh upstream fetch fails, the lookup returns `None` (not the stale
value) and the cache mapping is left exactly as it was: the stale entry is
retained and no failure entry is inserted. -/
theorem stale_fetch_failure_returns_none (cache : Cache) (tid : String) (now : ℚ)
    (d : PyVal) (t : ℚ) (hstale : lookupS tid cache = some (d, t))
    (h300 : 300 ≤ now - t) :
    fetchTrainDetailsCached cache tid now .err = (none, cache, true) := by
  unfold fetchTrainDetailsCached
  simp only [hstale]
  rw [if_neg (by linarith)]

/-- Witness for C9: a cache holding a 400-second-old entry for `"1"`; the
failed refetch returns `None` and the cache keeps the stale entry. -/
theorem stale_fetch_failure_returns_none_witness :
    fetchTrainDetailsCached [("1", (PyVal.vint 5, 0))] "1" 400 .err
      = (none, [("1", (PyVal.vint 5, 0))], true) :=
  stale_fetch_failure_returns_none _ "1" 400 (PyVal.vint 5) 0 (by simp [lookupS]) (by norm_num)

/-! ### C4: cache freshness -/

theorem lookupS_filter_of_mem {α : Type} {k : String} {l : List (String × α)} {v : α}
    {p : String × α → Bool} (h : lookupS k l = some v) (hp : p (k, v) = true) :
    lookupS k (l.filter p) = some v := by
  induction l with
  | nil => simp [lookupS] at h
  | cons e rest ih =>
    obtain ⟨k2, v2⟩ := e
    by_cases hk : k2 = k
    · subst hk
      simp [lookupS] at h
      subst h
      simp [List.filter_cons, hp, lookupS]
    · simp only [lookupS, if_neg hk] at h
      by_cases hc : p (k2, v2) = true
      · simp [List.filter_cons, hc, lookupS, hk, ih h]
      · simp [List.filter_cons, hc, ih h]

/-- C4: the cached detail lookup returns the cached value with no upstream
call exactly when the entry exists with age strictly below 300 s; otherwise
an upstream call is made and, on success, `(value, now)` is stored and the
value returned.  Consequently a second lookup within 5 minutes of a first
(miss, successful) lookup issues no further upstream call, and a lookup at
or past the 5-minute threshold issues a second one. -/
theorem detail_cache_freshness (cache : Cache) (tid : String) (now : ℚ)
    (f : FetchOutcome) :
    ((fetchTrainDetailsCached cache tid now f).2.2 = false ↔
      ∃ d t, lookupS tid cache = some (d, t) ∧ now - t < 300) ∧
    (∀ d t, lookupS tid cache = some (d, t) → now - t < 300 →
      fetchTrainDetailsCached cache tid now f = (some d, cache, false)) ∧
    (∀ data, f = .ok data →
      (¬ ∃ d t, lookupS tid cache = some (d, t) ∧ now - t < 300) →
      (fetchTrainDetailsCached cache tid now f).1 = some data ∧
      (fetchTrainDetailsCached cache tid now f).2.2 = true ∧
      lookupS tid (fetchTrainDetailsCached cache tid now f).2.1 = some (data, now)) ∧
    (∀ data now2 f2, f = .ok data → lookupS tid cache = none → now2 - now < 300 →
      fetchTrainDetailsCached (fetchTrainDetailsCached cache tid now f).2.1 tid now2 f2
        = (some data, (fetchTrainDetailsCached cache tid now f).2.1, false)) ∧
    (∀ data now3 f3, f = .ok data → lookupS tid cache = none → 300 ≤ now3 - now →
      (fetchTrainDetailsCached (fetchTrainDetailsCached cache tid now f).2.1 tid now3 f3).2.2
        = true) := by
  have hhit2 : ∀ (c : Cache) (nw : ℚ) (ff : FetchOutcome) d t,
      lookupS tid c = some (d, t) → nw - t < 300 →
      fetchTrainDetailsCached c tid nw ff = (some d, c, false) := by
    intro c nw ff d t hl hf
    unfold fetchTrainDetailsCached
    simp only [hl]
    rw [if_pos hf]
  have hhit : ∀ d t, lookupS tid cache = some (d, t) → now - t < 300 →
      fetchTrainDetailsCached cache tid now f = (some d, cache, false) :=
    hhit2 cache now f
  have hcall : ∀ (c : Cache) (nw : ℚ) (ff : FetchOutcome),
      (¬ ∃ d t, lookupS tid c = some (d, t) ∧ nw - t < 300) →
      (fetchTrainDetailsCached c tid nw ff).2.2 = true := by
    intro c nw ff hno
    rcases hlc : lookupS tid c with _ | dt
    · rcases ff with data | _ <;> simp [fetchTrainDetailsCached, hlc]
    · obtain ⟨d0, t0⟩ := dt
      have hst : ¬ nw - t0 < 300 := fun hcon => hno ⟨d0, t0, hlc, hcon⟩
      rcases ff with data | _ <;> simp [fetchTrainDetailsCached, hlc, hst]
  have hstore : ∀ data, f = .ok data →
      (¬ ∃ d t, lookupS tid cache = some (d, t) ∧ now - t < 300) →
      (fetchTrainDetailsCached cache tid now f).1 = some data ∧
      (fetchTrainDetailsCached cache tid now f).2.2 = true ∧
      lookupS tid (fetchTrainDetailsCached cache tid now f).2.1 = some (data, now) := by
    intro data hf hnofresh
    subst hf
    have hset : lookupS tid (dictSet cache tid (data, now)) = some (data, now) :=
      lookupS_dictSet_self cache tid (data, now)
    have hkeep : lookupS tid
        ((dictSet cache tid (data, now)).filter (fun e => decide (now - e.2.2 ≤ 600)))
        = some (data, now) := by
      apply lookupS_filter_of_mem hset
      simp
    rcases hl : lookupS tid cache with _ | dt
    · unfold fetchTrainDetailsCached
      simp only [hl]
      refine ⟨by trivial, by trivial, ?_⟩
      by_cases hlen : 1000 < (dictSet cache tid (data, now)).length
      · simpa [hlen] using hkeep
      · simpa [hlen] using hset
    · obtain ⟨d0, t0⟩ := dt
      have hstale : ¬ now - t0 < 300 := fun hcon => hnofresh ⟨d0, t0, hl, hcon⟩
      unfold fetchTrainDetailsCached
      simp only [hl]
      rw [if_neg hstale]
      refine ⟨by trivial, by trivial, ?_⟩
      by_cases hlen : 1000 < (dictSet cache tid (data, now)).length
      · simpa [hlen] using hkeep
      · simpa [hlen] using hset
  refine ⟨?_, hhit, hstore, ?_, ?_⟩
  · constructor
    · intro h
      rcases hl : lookupS tid cache with _ | dt
      · rcases f with data | _ <;> simp [fetchTrainDetailsCached, hl] at h
      · obtain ⟨d0, t0⟩ := dt
        by_cases hfresh : now - t0 < 300
        · exact ⟨d0, t0, rfl, hfresh⟩
        · rcases f with data | _ <;> simp [fetchTrainDetailsCached, hl, hfresh] at h
    · rintro ⟨d, t, hl, hf⟩
      rw [hhit d t hl hf]
  · intro data now2 f2 hf hl hlt
    have h3 := hstore data hf (by rintro ⟨d, t, hcon, _⟩; rw [hl] at hcon; exact Option.noConfusion hcon)
    exact hhit2 _ now2 f2 data now h3.2.2 hlt
  · intro data now3 f3 hf hl hge
    have h3 := hstore data hf (by rintro ⟨d, t, hcon, _⟩; rw [hl] at hcon; exact Option.noConfusion hcon)
    apply hcall _ now3 f3
    rintro ⟨d, t, he, hlt3⟩
    rw [h3.2.2] at he
    have ht : t = now := ((Prod.mk.injEq _ _ _ _ |>.mp (Option.some.inj he)).2).symm
    rw [ht] at hlt3
    linarith

/-- Witness for C4: an empty cache; the first lookup for `"1"` at time 0
fetches and stores, the second at time 100 is served from the cache with no
upstream call, and a third at time 300 fetches again. -/
theorem detail_cache_freshness_witness :
    fetchTrainDetailsCached
        (fetchTrainDetailsCached [] "1" 0 (.ok (PyVal.vint 5))).2.1 "1" 100 .err
      = (some (PyVal.vint 5), (fetchTrainDetailsCached [] "1" 0 (.ok (PyVal.vint 5))).2.1, false) ∧
    (fetchTrainDetailsCached
        (fetchTrainDetailsCached [] "1" 0 (.ok (PyVal.vint 5))).2.1 "1" 300 .err).2.2 = true := by
  constructor
  · exact (detail_cache_freshness [] "1" 0 (.ok (PyVal.vint 5))).2.2.2.1 (PyVal.vint 5) 100 .err
      rfl rfl (by norm_num)
  · exact (detail_cache_freshness [] "1" 0 (.ok (PyVal.vint 5))).2.2.2.2 (PyVal.vint 5) 300 .err
      rfl rfl (by norm_num)

/-! ### C5: opportunistic cache eviction -/

/-- C5: when the cache already holds more than 1000 entries and a fetch
stores a new entry, every entry whose age exceeds 600 s is purged by the
eviction pass, no entry aged 600 s or less is removed by it, and the newly
stored `(data, now)` pair is present afterwards.  (The source runs the purge
immediately after the insert, lines 176-183; the new entry has age zero and
always survives, so the final cache equals the claim's
purge-then-insert reading.) -/
theorem cache_eviction_bound (cache : Cache) (tid : String) (now : ℚ) (data : PyVal)
    (hsize : 1000 < cache.length)
    (hmiss : ∀ d t, lookupS tid cache = some (d, t) → 300 ≤ now - t) :
    (∀ e ∈ (fetchTrainDetailsCached cache tid now (.ok data)).2.1, now - e.2.2 ≤ 600) ∧
    (∀ e ∈ dictSet cache tid (data, now), now - e.2.2 ≤ 600 →
      e ∈ (fetchTrainDetailsCached cache tid now (.ok data)).2.1) ∧
    lookupS tid (fetchTrainDetailsCached cache tid now (.ok data)).2.1
      = some (data, now) := by
  have hlen : 1000 < (dictSet cache tid (data, now)).length :=
    lt_of_lt_of_le hsize (length_le_dictSet cache tid (data, now))
  have hc2 : (fetchTrainDetailsCached cache tid now (.ok data)).2.1
      = (dictSet cache tid (data, now)).filter (fun e => decide (now - e.2.2 ≤ 600)) := by
    rcases hl : lookupS tid cache with _ | dt
    · unfold fetchTrainDetailsCached
      simp only [hl]
      simp [hlen]
    · obtain ⟨d0, t0⟩ := dt
      have hstale : ¬ now - t0 < 300 := by
        have h0 := hmiss d0 t0 hl
        linarith
      unfold fetchTrainDetailsCached
      simp only [hl]
      rw [if_neg hstale]
      simp [hlen]
  rw [hc2]
  refine ⟨?_, ?_, ?_⟩
  · intro e he
    have h2 := (List.mem_filter.mp he).2
    simpa using h2
  · intro e he hage
    exact List.mem_filter.mpr ⟨he, by simpa using hage⟩
  · exact lookupS_filter_of_mem (lookupS_dictSet_self _ _ _) (by simp)

/-- Witness for C5: a 1001-entry cache, all entries 400 s old; fetching a
fresh detail for the stale head entry stores `(value, now)` and it is
present after eviction. -/
theorem cache_eviction_bound_witness :
    1000 < (("0", (PyVal.pyNone, (0:ℚ))) ::
      (List.range 1000).map (fun i => (toString (i+1), (PyVal.pyNone, (0:ℚ))))).length ∧
    lookupS "0" ((fetchTrainDetailsCached
        (("0", (PyVal.pyNone, (0:ℚ))) ::
          (List.range 1000).map (fun i => (toString (i+1), (PyVal.pyNone, (0:ℚ)))))
        "0" 400 (.ok (PyVal.vint 7))).2.1)
      = some (PyVal.vint 7, 400) := by
  have hsize : 1000 < (("0", (PyVal.pyNone, (0:ℚ))) ::
      (List.range 1000).map (fun i => (toString (i+1), (PyVal.pyNone, (0:ℚ))))).length := by
    simp
  have hmiss : ∀ d t, lookupS "0" (("0", (PyVal.pyNone, (0:ℚ))) ::
      (List.range 1000).map (fun i => (toString (i+1), (PyVal.pyNone, (0:ℚ)))))
      = some (d, t) → 300 ≤ (400:ℚ) - t := by
    intro d t h
    have he : lookupS "0" (("0", (PyVal.pyNone, (0:ℚ))) ::
        (List.range 1000).map (fun i => (toString (i+1), (PyVal.pyNone, (0:ℚ)))))
        = some (PyVal.pyNone, (0:ℚ)) := by
      simp [lookupS]
    rw [he] at h
    have ht : t = 0 := ((Prod.mk.injEq _ _ _ _ |>.mp (Option.some.inj h)).2).symm
    rw [ht]
    norm_num
  exact ⟨hsize, (cache_eviction_bound _ "0" 400 (PyVal.vint 7) hsize hmiss).2.2⟩

/-! ### C10: summaries with a missing train number -/

/-- The `trainId` entry of every record `_process_train_data` builds is the
string rendering of the basic summary's `trainNumber` (line 215), i.e. the
summary's dedup key. -/
theorem processTrainData_trainId {basic details : PyVal} {now : ℚ} {rec : PyVal}
    (h : processTrainData basic details now = some rec) :
    pyGetOpt rec "trainId" = some (.vstr (trainKey basic)) := by
  unfold processTrainData at h
  rcases hs : extractSummaryFields basic with _ | s
  · simp [hs] at h
  · rcases hd : extractDetailFields details with _ | dd
    · simp [hs, hd] at h
    · simp [hs, hd] at h
      subst h
      simp [pyGetOpt, lookupS, trainKey]

/-- C10: a collected summary without a `trainNumber` field is not dropped by
deduplication: its key is the string `"None"` (the rendering of the missing
value), which is non-empty and passes the key check; all such summaries
collapse into the single key `"None"`, exactly one detail fetch is issued
for the id `"None"`, and any record published under that key carries
`trainId = "None"`. -/
theorem missing_trainNumber_collapses_to_None (all_trains : List PyVal)
    (t : PyVal) (fs : List (String × PyVal)) (ht : t = .vdict fs)
    (hmiss : lookupS "trainNumber" fs = none) (hmem : t ∈ all_trains) :
    trainKey t = "None" ∧ ("None" : String) ≠ "" ∧
    (detailFetchIds all_trains).count "None" = 1 ∧
    (∀ d now rec,
      lookupS "None" (buildSnapshot d (uniqueTrains all_trains) now) = some rec →
      pyGetOpt rec "trainId" = some (.vstr "None")) := by
  have hkey : trainKey t = "None" := by
    subst ht
    simp [trainKey, pyGet, hmiss, pyStr]
  refine ⟨hkey, by simp, ?_, ?_⟩
  · exact (dedup_first_occurrence_wins all_trains "None" (by simp)).2 ⟨t, hmem, hkey⟩
  · intro d now rec hrec
    rw [buildSnapshot, snap_fold_lookup d now _ [] "None" (uniqueTrains_keys_nodup _)] at hrec
    rcases hb : lookupS "None" (uniqueTrains all_trains) with _ | basic
    · rw [hb] at hrec
      simp [lookupS] at hrec
    · rw [hb] at hrec
      simp only [lookupS] at hrec
      have hkb : trainKey basic = "None" :=
        ((dedup_first_occurrence_wins all_trains "None" (by simp)).1 basic hb).2
      rcases hse : snapshotEntry d now "None" basic with _ | rec2
      · rw [hse] at hrec
        simp [lookupS] at hrec
      · rw [hse] at hrec
        simp at hrec
        subst hrec
        unfold snapshotEntry at hse
        rcases hdt : d "None" with _ | td
        · simp [hdt] at hse
        · simp only [hdt] at hse
          by_cases hv : pyTruthy td = true ∧ hasValidCoordinates td = true
          · rw [if_pos hv] at hse
            have hid := processTrainData_trainId hse
            rw [hkb] at hid
            exact hid
          · rw [if_neg hv] at hse
            exact Option.noConfusion hse

/-- Witness for C10: one collected summary with no `trainNumber` field. -/
theorem missing_trainNumber_collapses_to_None_witness :
    trainKey (.vdict [("foo", PyVal.vint 1)]) = "None" ∧ ("None" : String) ≠ "" ∧
    (detailFetchIds [PyVal.vdict [("foo", PyVal.vint 1)]]).count "None" = 1 ∧
    (∀ d now rec,
      lookupS "None" (buildSnapshot d (uniqueTrains [PyVal.vdict [("foo", PyVal.vint 1)]]) now)
        = some rec →
      pyGetOpt rec "trainId" = some (.vstr "None")) :=
  missing_trainNumber_collapses_to_None [PyVal.vdict [("foo", PyVal.vint 1)]]
    (PyVal.vdict [("foo", PyVal.vint 1)]) [("foo", PyVal.vint 1)] rfl
    (by simp [lookupS]) (by simp)

/-! ### C7: reference semantics of the consumer-facing read API

The value model above cannot express aliasing, so the two read functions
`get_all_trains` (line 257) and `get_train_route` (lines 266-271) are
modelled over an explicit heap: records and route lists are heap objects,
and Python variables hold references.  `dict.copy()` allocates a new dict
object sharing the entry values; `train.get('route', [])` returns the
stored value itself (a reference to the live route list) or a fresh empty
list. -/

abbrev Addr := Nat

/-- A value stored in a container: an immutable primitive, or a reference to
another heap object (Python numbers/strings are immutable; dicts and lists
are mutable objects). -/
inductive HVal where
  | prim (v : PyVal)
  | ref (a : Addr)

/-- A mutable Python object: a dict or a list. -/
inductive HObj where
  | dictO (entries : List (String × HVal))
  | listO (items : List HVal)

/-- First value bound to address `a` in an address-keyed association list. -/
def lookupA {α : Type} (a : Nat) : List (Nat × α) → Option α
  | [] => none
  | (a2, v) :: rest => if a2 = a then some v else lookupA a rest

/-- A heap of allocated objects with a fresh-address counter. -/
structure Heap where
  objs : List (Addr × HObj)
  next : Addr

def Heap.get (h : Heap) (a : Addr) : Option HObj :=
  lookupA a h.objs

def Heap.set (h : Heap) (a : Addr) (o : HObj) : Heap :=
  { h with objs := h.objs.map (fun p => if p.1 = a then (a, o) else p) }

def Heap.alloc (h : Heap) (o : HObj) : Heap × Addr :=
  ({ objs := (h.next, o) :: h.objs, next := h.next + 1 }, h.next)

/-- `get_all_trains` (line 257): `self.trains_data.copy()` — a new dict
object with the same entry list; entry values (record references) are
shared, not copied.  (The non-dict fallback is unreachable: `trains_data`
is always a dict.) -/
def getAllTrains (h : Heap) (trains_data : Addr) : Heap × Addr :=
  match h.get trains_data with
  | some (.dictO es) => h.alloc (.dictO es)
  | _ => h.alloc (.dictO [])

/-- `get_train_route` (lines 266-271): `train = self.trains_data.get(id)`;
when `train` is a truthy record dict, return `train.get('route', [])` — the
stored route value itself when present (a live reference); otherwise a
freshly allocated empty list.  (Branches for a non-dict record are
unreachable: published records are dicts.) -/
def getTrainRoute (h : Heap) (trains_data : Addr) (train_id : String) : Heap × HVal :=
  let freshEmpty := fun (hh : Heap) =>
    let pair := hh.alloc (.listO [])
    (pair.1, HVal.ref pair.2)
  match h.get trains_data with
  | some (.dictO es) =>
    match lookupS train_id es with
    | some (.ref ra) =>
      match h.get ra with
      | some (.dictO res) =>
        if !res.isEmpty then
          match lookupS "route" res with
          | some v => (h, v)
          | none => freshEmpty h
        else freshEmpty h
      | _ => freshEmpty h
    | _ => freshEmpty h
  | _ => freshEmpty h

/-- Caller-side `d[k] = v` through a dict reference. -/
def dictSetItem (h : Heap) (a : Addr) (k : String) (v : HVal) : Heap :=
  match h.get a with
  | some (.dictO es) => h.set a (.dictO (dictSet es k v))
  | _ => h

/-- Caller-side `del d[k]` through a dict reference. -/
def dictDelItem (h : Heap) (a : Addr) (k : String) : Heap :=
  match h.get a with
  | some (.dictO es) => h.set a (.dictO (es.filter (fun e => !(e.1 == k))))
  | _ => h

/-- Caller-side `lst[i] = v` through a list reference. -/
def listSetItem (h : Heap) (a : Addr) (i : Nat) (v : HVal) : Heap :=
  match h.get a with
  | some (.listO items) => h.set a (.listO (items.set i v))
  | _ => h

/-- What the service's published snapshot holds for field `k` of train
`tid`, read through the live `trains_data` object. -/
def serviceFieldView (h : Heap) (trains_data : Addr) (tid k : String) : Option HVal :=
  match h.get trains_data with
  | some (.dictO es) =>
    match lookupS tid es with
    | some (.ref ra) =>
      match h.get ra with
      | some (.dictO res) => lookupS k res
      | _ => none
    | _ => none
  | _ => none

/-- The contents of the route list the service's snapshot holds for `tid`. -/
def serviceRouteView (h : Heap) (trains_data : Addr) (tid : String) : Option (List HVal) :=
  match serviceFieldView h trains_data tid "route" with
  | some (.ref ra) =>
    match h.get ra with
    | some (.listO items) => some items
    | _ => none
  | _ => none

/-- A concrete service heap: `trains_data` at address 0 maps `"T1"` to the
record at address 1, whose route list lives at address 2. -/
def exampleHeap : Heap :=
  { objs := [(0, .dictO [("T1", .ref 1)]),
             (1, .dictO [("delay", .prim (.vint 0)), ("route", .ref 2)]),
             (2, .listO [.prim (.vint 1)])],
    next := 3 }

/-- C7 counterexample: the reads do NOT return defensive copies free of live
references.  `get_all_trains` copies only the top-level dict — the record
reference is shared, and writing a field through it changes the published
snapshot (delay 0 becomes 99); `get_train_route` returns the live route
list reference itself, and writing through it changes the published route. -/
theorem read_api_returns_live_references :
    (getAllTrains exampleHeap 0).2 = 3 ∧
    (getAllTrains exampleHeap 0).1.get 3 = some (.dictO [("T1", .ref 1)]) ∧
    serviceFieldView exampleHeap 0 "T1" "delay" = some (.prim (.vint 0)) ∧
    serviceFieldView (dictSetItem (getAllTrains exampleHeap 0).1 1 "delay"
        (.prim (.vint 99))) 0 "T1" "delay" = some (.prim (.vint 99)) ∧
    (getTrainRoute exampleHeap 0 "T1").2 = HVal.ref 2 ∧
    serviceRouteView exampleHeap 0 "T1" = some [.prim (.vint 1)] ∧
    serviceRouteView (listSetItem exampleHeap 2 0 (.prim (.vint 7))) 0 "T1"
      = some [.prim (.vint 7)] :=
  ⟨rfl, rfl, rfl, rfl, rfl, rfl, rfl⟩

theorem lookupA_map_set_ne {α : Type} (l : List (Nat × α)) (a a2 : Nat) (o : α)
    (h : a2 ≠ a) :
    lookupA a2 (l.map (fun p => if p.1 = a then (a, o) else p)) = lookupA a2 l := by
  induction l with
  | nil => rfl
  | cons e rest ih =>
    obtain ⟨k, v⟩ := e
    rw [List.map_cons]
    by_cases hk : k = a
    · have hif : (if (k, v).1 = a then (a, o) else (k, v)) = (a, o) := by simp [hk]
      rw [hif]
      have h1 : ¬ (a = a2) := fun hh => h hh.symm
      have h2 : ¬ (k = a2) := fun hh => h (hh ▸ hk : a2 = a)
      simp only [lookupA]
      rw [if_neg h1, if_neg h2]
      exact ih
    · have hif : (if (k, v).1 = a then (a, o) else (k, v)) = (k, v) := by simp [hk]
      rw [hif]
      by_cases hk2 : k = a2
      · simp only [lookupA]
        rw [if_pos hk2, if_pos hk2]
      · simp only [lookupA]
        rw [if_neg hk2, if_neg hk2]
        exact ih

/-- C7 (amended): `get_all_trains` returns a shallow copy: a fresh dict
object (distinct from the store's), so deleting a key from the returned
mapping leaves the service's mapping unchanged; but the entry values are
the same record references, and `get_train_route` returns the stored route
reference itself without copying and without modifying the heap — in-place
mutation through either shared reference is visible in the published
snapshot (see the counterexample). -/
theorem get_all_trains_shallow_copy (h : Heap) (td : Addr) (es : List (String × HVal))
    (hget : h.get td = some (.dictO es)) (hlt : td < h.next) :
    (getAllTrains h td).2 ≠ td ∧
    (getAllTrains h td).1.get (getAllTrains h td).2 = some (.dictO es) ∧
    (getAllTrains h td).1.get td = some (.dictO es) ∧
    (∀ k, (dictDelItem (getAllTrains h td).1 (getAllTrains h td).2 k).get td
      = some (.dictO es)) ∧
    (∀ tid ra res rv, lookupS tid es = some (.ref ra) → h.get ra = some (.dictO res) →
      res ≠ [] → lookupS "route" res = some rv →
      getTrainRoute h td tid = (h, rv)) := by
  have hc : getAllTrains h td = (⟨(h.next, .dictO es) :: h.objs, h.next + 1⟩, h.next) := by
    unfold getAllTrains
    rw [hget]
    rfl
  have hne : h.next ≠ td := fun he => absurd (he ▸ hlt) (lt_irrefl _)
  refine ⟨?_, ?_, ?_, ?_, ?_⟩
  · rw [hc]
    exact hne
  · rw [hc]
    simp [Heap.get, lookupA]
  · rw [hc]
    simp only [Heap.get, lookupA, if_neg hne]
    exact hget
  · intro k
    rw [hc]
    have hga : (Heap.mk ((h.next, HObj.dictO es) :: h.objs) (h.next + 1)).get h.next
        = some (.dictO es) := by
      simp [Heap.get, lookupA]
    unfold dictDelItem
    simp only [hga]
    unfold Heap.set Heap.get
    simp only [List.map_cons]
    simp only [if_true]
    simp only [lookupA]
    rw [if_neg hne, lookupA_map_set_ne _ _ _ _ (fun he => hne he.symm)]
    exact hget
  · intro tid ra res rv h1 h2 h3 h4
    have hempty : res.isEmpty = false := by
      cases res
      · exact absurd rfl h3
      · rfl
    unfold getTrainRoute
    simp only [hget, h1, h2, h4, hempty]
    simp

/-- Witness for C7 (amended) at the concrete heap: the copy is a fresh
object, deletion through it leaves the store intact, and the route returned
for `"T1"` is the stored reference. -/
theorem get_all_trains_shallow_copy_witness :
    (getAllTrains exampleHeap 0).2 ≠ 0 ∧
    (dictDelItem (getAllTrains exampleHeap 0).1 (getAllTrains exampleHeap 0).2 "T1").get 0
      = some (.dictO [("T1", .ref 1)]) ∧
    getTrainRoute exampleHeap 0 "T1" = (exampleHeap, .ref 2) := by
  have hmain := get_all_trains_shallow_copy exampleHeap 0 [("T1", .ref 1)] rfl (by decide)
  exact ⟨hmain.1, hmain.2.2.2.1 "T1",
    hmain.2.2.2.2 "T1" 1 [("delay", .prim (.vint 0)), ("route", .ref 2)] (.ref 2)
      rfl rfl (by simp) rfl⟩

end MonitorCP
